import Mathlib

/-!
# spleeterpp: the model invocation bridge and the filter latency

A shallow embedding of `src/spleeter/model.cc` (`GetPath`, `GetOutputNames`,
`Initialize`, `RunModel`, `SetOutput`) and of the configuration part of
`src/spleeter/filter.h`, followed by the properties proved about them.

Conventions of the embedding.

* A raw pointer `T*` is an `Option T`: `none` is the null pointer, `some x` a
  pointer to the live object `x`.
* A function that dereferences a pointer returns an `Option`; `none` stands for
  the undefined behaviour of dereferencing a null pointer or of reading past
  the end of a buffer.
* A `float` is kept as its 32-bit pattern, a natural number: the bridge only
  moves floats, it never computes with them.
* The tensor runtime is external. The saved-model loader and the session are
  values the functions receive; nothing is assumed about what they answer.
* The calls that load a model, write the registry or execute a session are
  recorded, in program order, in a list of `Call`s returned next to the result.
-/

namespace spleeter

/-! ## Types declared outside the two source files -/

/-- Modelled from the spec: the enumeration `SeparationType` of `type.h`, which
is not among the sources. The spec lists exactly three profiles. With these
three values the `default:` branches of `GetPath` and `GetOutputNames` are
never taken. -/
inductive SeparationType where
  | TwoStems
  | FourStems
  | FiveStems
  deriving DecidableEq, Repr

/-- Modelled from the spec: the number of stems a profile separates. -/
def SeparationType.stemCount : SeparationType → Nat
  | .TwoStems => 2
  | .FourStems => 4
  | .FiveStems => 5

/-- The values of `std::errc` the bridge produces, and any other value the
caller's `std::error_code` may hold on entry. -/
inductive errc where
  | io_error
  | protocol_error
  | other (value : Nat)
  deriving DecidableEq, Repr

/-- A `std::error_code`: `none` is the default-constructed "no error". -/
abbrev error_code := Option errc

/-- The function `std::make_error_code`. -/
def make_error_code (e : errc) : error_code := some e

/-- A `float`, as its bit pattern. -/
abbrev float := Nat

/-- A `TF_Code`; `TF_OK` is zero, every other value is a failure. -/
abbrev TF_Code := Nat

/-- The status code `TF_OK`. -/
def TF_OK : TF_Code := 0

/-- A node of a computation graph. -/
structure TF_Operation where
  id : Nat
  deriving DecidableEq, Repr

/-- The struct `TF_Output`: a node (possibly null) and an output index. -/
structure TF_Output where
  oper : Option TF_Operation
  index : Nat
  deriving DecidableEq, Repr

/-- A tensor: its dimensions and its floats in storage order. -/
structure TF_Tensor where
  dims : List Nat
  data : List float
  deriving DecidableEq, Repr

/-- A computation graph, seen through `TF_GraphOperationByName`. -/
structure TF_Graph where
  OperationByName : String → Option TF_Operation

/-- The function `TF_GraphOperationByName` on a live graph: the node of that
name, or null. -/
def TF_GraphOperationByName (graph : TF_Graph) (oper_name : String) :
    Option TF_Operation :=
  graph.OperationByName oper_name

/-- A session, seen through `TF_SessionRun`: from the input endpoints, the input
tensors and the output endpoints it answers a status code and, for every slot of
the output array, the tensor pointer it stores there. -/
structure TF_Session where
  Run : List TF_Output → List (Option TF_Tensor) → List TF_Output →
    TF_Code × (Nat → Option TF_Tensor)

/-- The function `TF_SessionRun`: the session pointer is dereferenced, and the
first `noutputs` slots of `output_values` are overwritten. -/
def TF_SessionRun (session : Option TF_Session) (inputs : List TF_Output)
    (input_values : List (Option TF_Tensor)) (outputs : List TF_Output)
    (output_values : List (Option TF_Tensor)) (noutputs : Nat) :
    Option (TF_Code × List (Option TF_Tensor)) :=
  match session with
  | none => none
  | some s =>
    let r := s.Run inputs input_values outputs
    some (r.1, (List.range noutputs).map r.2 ++ output_values.drop noutputs)

/-- Modelled from the spec: the class `TFHandle` of `tf_handle.h`, which is not
among the sources: an owner of one raw pointer, read back with `get`. -/
structure TFHandle (T : Type) where
  get : Option T

/-- A `TFHandlePtr<T>`, the shared pointer to a handle. -/
abbrev TFHandlePtr (T : Type) := TFHandle T

/-- Modelled from the spec: `MakeHandle` of `tf_handle.h` wraps a raw pointer. -/
def MakeHandle {T : Type} (ptr : Option T) : TFHandlePtr T := ⟨ptr⟩

/-- The pair `Bundle` of `filter.h`: a session handle and its graph handle. -/
structure Bundle where
  first : TFHandlePtr TF_Session
  second : TFHandlePtr TF_Graph

/-- A `BundlePtr`; the null shared pointer is the `none` of an `Option BundlePtr`. -/
abbrev BundlePtr := Bundle

/-- Modelled from the spec: the class `Registry` of `registry.h`, which is not
among the sources: a mapping from a profile to at most one bundle. -/
structure Registry where
  bundles : SeparationType → Option BundlePtr

/-- Modelled from the spec: `Register(bundle, profile)` stores or replaces the
bundle of the profile and leaves every other profile alone. -/
def Registry.Register (r : Registry) (bundle : BundlePtr) (type : SeparationType) :
    Registry :=
  ⟨fun t => if t = type then some bundle else r.bundles t⟩

/-- Modelled from the spec: `Get(profile)` returns the bundle of the profile, or
the not-found indicator. -/
def Registry.Get (r : Registry) (type : SeparationType) : Option BundlePtr :=
  r.bundles type

/-- Modelled from the spec: the matrix type `Waveform` of `type.h`, which is not
among the sources: a dense matrix of floats with its row and column counts and
its `rows * cols` coefficients in storage order. -/
structure Waveform where
  rows : Nat
  cols : Nat
  data : List float
  wf : data.length = rows * cols

/-- The member `size()` of a matrix: the number of coefficients. -/
def Waveform.size (w : Waveform) : Nat := w.rows * w.cols

/-- The member `resize(rows, cols)` of a matrix: the coefficients are kept when
the number of coefficients does not change; otherwise the storage is allocated
anew and its contents are unspecified, here zeros. -/
def Waveform.resize (w : Waveform) (rows cols : Nat) : Waveform :=
  if h : w.rows * w.cols = rows * cols then ⟨rows, cols, w.data, w.wf.trans h⟩
  else ⟨rows, cols, List.replicate (rows * cols) 0, List.length_replicate _ _⟩

/-- The function `TF_TensorData`: the tensor pointer is dereferenced. -/
def TF_TensorData (tensor : Option TF_Tensor) : Option (List float) :=
  match tensor with
  | none => none
  | some t => some t.data

/-- The function `TF_NewTensor` for `TF_FLOAT`: a tensor of the given dimensions
over the first `len` bytes of the caller's buffer. -/
def TF_NewTensor (dims : List Nat) (data : List float) (len : Nat) : Option TF_Tensor :=
  some ⟨dims, data.take (len / 4)⟩

/-- The algorithm `std::copy(first, first + n, d_first)` on two buffers: the
first `n` floats of the destination become the first `n` floats of the source.
Reading or writing past the end of a buffer is undefined. -/
def std_copy (first : List float) (n : Nat) (d_first : List float) :
    Option { d : List float // d.length = d_first.length } :=
  if h : n ≤ first.length ∧ n ≤ d_first.length then
    some ⟨first.take n ++ d_first.drop n, by
      rw [List.length_append, List.length_take, List.length_drop]; omega⟩
  else none

/-- The calls recorded by the embedding. -/
inductive Call where
  | LoadSessionFromSavedModel (export_dir : String) (tags : List String)
  | Register (type : SeparationType)
  | SessionRun (noutputs : Nat)
  deriving DecidableEq, Repr

/-! ## model.cc -/

/-- The function `GetPath`. -/
def GetPath (path_to_models : String) (type : SeparationType) : String :=
  match type with
  | .TwoStems => path_to_models ++ "/2stems"
  | .FourStems => path_to_models ++ "/4stems"
  | .FiveStems => path_to_models ++ "/5stems"

/-- The function `GetOutputNames`. -/
def GetOutputNames (type : SeparationType) : List String :=
  match type with
  | .TwoStems => ["strided_slice_11", "strided_slice_19"]
  | .FourStems => ["strided_slice_11", "strided_slice_19", "strided_slice_27",
      "strided_slice_35"]
  | .FiveStems => ["strided_slice_16", "strided_slice_32", "strided_slice_40",
      "strided_slice_24", "strided_slice_48"]

/-- The answer of `TF_LoadSessionFromSavedModel`: the status code, the session
pointer (null when loading failed) and the graph the loader filled in. -/
structure LoadResult where
  code : TF_Code
  session_ptr : Option TF_Session
  graph : TF_Graph

/-- The saved-model loader of the runtime: from the export directory and the
tags to its answer. -/
abbrev Loader := String → List String → LoadResult

/-- What `Initialize` leaves behind: the registry, the caller's error code and
the calls made. -/
structure InitializeState where
  registry : Registry
  err : error_code
  calls : List Call

/-- The function `Initialize`. -/
def Initialize (loader : Loader) (registry : Registry) (path_to_models : String)
    (type : SeparationType) (err : error_code) : InitializeState :=
  let path_to_model := GetPath path_to_models type
  let tags := ["serve"]
  let loaded := loader path_to_model tags
  let graph : TFHandlePtr TF_Graph := MakeHandle (some loaded.graph)
  let calls := [Call.LoadSessionFromSavedModel path_to_model tags]
  if loaded.code ≠ TF_OK then
    ⟨registry, make_error_code errc.io_error, calls⟩
  else
    let session : TFHandlePtr TF_Session := MakeHandle loaded.session_ptr
    ⟨registry.Register ⟨session, graph⟩ type, err, calls ++ [Call.Register type]⟩

/-- What `RunModel` leaves behind: the caller's result vector and error code,
and the calls made. -/
structure RunModelState where
  result : List (TFHandlePtr TF_Tensor)
  err : error_code
  calls : List Call

/-- The loop of `RunModel` over the output names: it grows `output_ops` and
`outputs`, and stops with `none` at the first name the graph does not have. -/
def RunModel.outputLoop (graph : TF_Graph) :
    List String → List TF_Output → List (Option TF_Tensor) →
    Option (List TF_Output × List (Option TF_Tensor))
  | [], output_ops, outputs => some (output_ops, outputs)
  | output_name :: names, output_ops, outputs =>
    let op : TF_Output := ⟨TF_GraphOperationByName graph output_name, 0⟩
    let output_ops := output_ops ++ [op]
    match output_ops.getLast?.bind TF_Output.oper with
    | none => none
    | some _ => RunModel.outputLoop graph names output_ops (outputs ++ [none])

/-- The function `RunModel`. The graph pointer of the bundle is dereferenced by
the first `TF_GraphOperationByName`, the session pointer by `TF_SessionRun`. -/
def RunModel (registry : Registry) (input : Waveform) (separation_type : SeparationType)
    (result : List (TFHandlePtr TF_Tensor)) (err : error_code) : Option RunModelState :=
  match registry.Get separation_type with
  | none => some ⟨result, make_error_code errc.protocol_error, []⟩
  | some bundle =>
    let session := bundle.first
    let graph := bundle.second
    match graph.get with
    | none => none
    | some g =>
      let input_op : TF_Output := ⟨TF_GraphOperationByName g "Placeholder", 0⟩
      if input_op.oper = none then
        some ⟨result, make_error_code errc.protocol_error, []⟩
      else
        let input_dims := [input.cols, input.rows]
        let data_len := input.cols * input.rows * 4
        let input_tensor_ptr := TF_NewTensor input_dims input.data data_len
        let input_tensor : TFHandlePtr TF_Tensor := MakeHandle input_tensor_ptr
        let inputs := [input_tensor.get]
        match RunModel.outputLoop g (GetOutputNames separation_type) [] [] with
        | none => some ⟨result, make_error_code errc.protocol_error, []⟩
        | some (output_ops, outputs) =>
          match TF_SessionRun session.get [input_op] inputs output_ops outputs
              output_ops.length with
          | none => none
          | some (code, outputs) =>
            let calls := [Call.SessionRun output_ops.length]
            if code ≠ TF_OK then
              some ⟨result, make_error_code errc.io_error, calls⟩
            else
              some ⟨outputs.map MakeHandle, err, calls⟩

/-- The loop of `SetOutput`, from `index` on; `tf_output` is what is left of the
tensor vector. The vector `output` of matrix pointers is the list of the
matrices they point to, each pointer to a live matrix of its own. -/
def SetOutput.loop (frame_count : Nat) :
    List (TFHandlePtr TF_Tensor) → Nat → List Waveform → Option (List Waveform)
  | [], _, output => some output
  | t :: tf_output, index, output =>
    match output[index]? with
    | none => none
    | some w =>
      let w := w.resize 2 frame_count
      match TF_TensorData t.get with
      | none => none
      | some tf_output_ptr =>
        match std_copy tf_output_ptr w.size w.data with
        | none => none
        | some d =>
          SetOutput.loop frame_count tf_output (index + 1)
            (output.set index ⟨w.rows, w.cols, d.val, d.property.trans w.wf⟩)

/-- The function `SetOutput`. -/
def SetOutput (tf_output : List (TFHandlePtr TF_Tensor)) (frame_count : Nat)
    (output : List Waveform) : Option (List Waveform) :=
  SetOutput.loop frame_count tf_output 0 output

/-! ## filter.h -/

/-- The configuration members of the class `Filter`; the buffers are left out. -/
structure Filter where
  m_type : SeparationType
  m_process_length : Nat
  m_frame_length : Nat
  m_overlap_length : Nat
  m_force_conservativity : Bool
  m_frame_index : Nat

/-- The getter `ProcessLength`. -/
def Filter.ProcessLength (f : Filter) : Nat := f.m_process_length

/-- The getter `FrameLength`. -/
def Filter.FrameLength (f : Filter) : Nat := f.m_frame_length

/-- Modelled from the spec: the body of `Filter::FrameLatency` is in `filter.cc`,
which is not among the sources; `filter.h` declares it with the comment
"Latency is T - (T - FrameLength) / 2". The two `uint16_t` lengths are promoted
to `int`, the division truncates toward zero, and the value is converted to the
`uint32_t` the function returns. -/
def Filter.FrameLatency (f : Filter) : Nat :=
  (((f.ProcessLength : Int) -
    Int.tdiv ((f.ProcessLength : Int) - (f.FrameLength : Int)) 2) % 4294967296).toNat

/-! ## Vocabulary of the statements about `RunModel` -/

/-- The input endpoint `RunModel` hands to the session: output 0 of the node
named "Placeholder". -/
def RunModel.input_op (g : TF_Graph) : TF_Output :=
  ⟨TF_GraphOperationByName g "Placeholder", 0⟩

/-- The input tensors `RunModel` hands to the session: one tensor of dimensions
`[cols, rows]` over the buffer of the input matrix. -/
def RunModel.inputs (input : Waveform) : List (Option TF_Tensor) :=
  [TF_NewTensor [input.cols, input.rows] input.data (input.cols * input.rows * 4)]

/-- The output endpoints `RunModel` hands to the session: output 0 of the node
of each name of `GetOutputNames`, in that order. -/
def RunModel.output_ops (g : TF_Graph) (type : SeparationType) : List TF_Output :=
  (GetOutputNames type).map fun name => ⟨TF_GraphOperationByName g name, 0⟩

/-- The answer of a session to the request `RunModel` makes. -/
def RunModel.answer (s : TF_Session) (g : TF_Graph) (input : Waveform)
    (type : SeparationType) : TF_Code × (Nat → Option TF_Tensor) :=
  s.Run [RunModel.input_op g] (RunModel.inputs input) (RunModel.output_ops g type)

/-- The registry holds a bundle for the profile, with a live graph `g` and a
live session `s`, and the graph has the node "Placeholder" and a node for each
output name of the profile. -/
def BundleAndEndpointsFound (registry : Registry) (type : SeparationType)
    (s : TF_Session) (g : TF_Graph) : Prop :=
  (∃ bundle, registry.Get type = some bundle ∧ bundle.first.get = some s ∧
    bundle.second.get = some g) ∧
  TF_GraphOperationByName g "Placeholder" ≠ none ∧
  ∀ name ∈ GetOutputNames type, TF_GraphOperationByName g name ≠ none

/-! ## Concrete values for the instances -/

/-- A graph with the node "Placeholder" and the two output nodes of `TwoStems`. -/
def exampleGraph : TF_Graph :=
  ⟨fun name => if name = "Placeholder" then some ⟨0⟩
    else if name ∈ GetOutputNames .TwoStems then some ⟨1⟩ else none⟩

/-- A graph with the node "Placeholder" only. -/
def inputOnlyGraph : TF_Graph :=
  ⟨fun name => if name = "Placeholder" then some ⟨0⟩ else none⟩

/-- A session that answers the given code and stores a one-float tensor holding
`i` in slot `i`. -/
def exampleSession (code : TF_Code) : TF_Session :=
  ⟨fun _ _ _ => (code, fun i => some ⟨[1], [i]⟩)⟩

/-- A registry with one bundle, for `TwoStems`. -/
def exampleRegistry (s : TF_Session) (g : TF_Graph) : Registry :=
  ⟨fun t => if t = .TwoStems then some ⟨MakeHandle (some s), MakeHandle (some g)⟩ else none⟩

/-- The registry without any bundle. -/
def emptyRegistry : Registry := ⟨fun _ => none⟩

/-- A 2 x 1 input matrix. -/
def exampleInput : Waveform := ⟨2, 1, [7, 8], rfl⟩

/-- One tensor of three floats, behind its handle. -/
def exampleTensors : List (TFHandlePtr TF_Tensor) := [MakeHandle (some ⟨[1, 3], [11, 12, 13]⟩)]

/-- Two matrices: a 2 x 2 one and a 1 x 1 one. -/
def exampleOutput : List Waveform := [⟨2, 2, [1, 2, 3, 4], rfl⟩, ⟨1, 1, [9], rfl⟩]

/-- A loader that answers the given code, the example session and graph. -/
def exampleLoader (code : TF_Code) : Loader :=
  fun _ _ => ⟨code, if code = TF_OK then some (exampleSession TF_OK) else none, exampleGraph⟩

/-! ## Properties of `GetPath` and `GetOutputNames` -/

theorem append_left_ne (root a b : String) (h : a ≠ b) : root ++ a ≠ root ++ b := by
  intro hab
  apply h
  have hd := congrArg String.data hab
  rw [String.data_append, String.data_append] at hd
  exact String.ext (List.append_cancel_left hd)

/-- C8: for every root, `GetPath` answers the root followed by "/2stems",
"/4stems" or "/5stems" according to the profile; each answer is the root, one
slash and a directory name without a slash, and the three answers are pairwise
different. -/
theorem GetPath_directories (path_to_models : String) :
    GetPath path_to_models .TwoStems = path_to_models ++ "/2stems" ∧
    GetPath path_to_models .FourStems = path_to_models ++ "/4stems" ∧
    GetPath path_to_models .FiveStems = path_to_models ++ "/5stems" ∧
    (∀ type, ∃ dir : String, GetPath path_to_models type = path_to_models ++ "/" ++ dir ∧
      dir ∈ ["2stems", "4stems", "5stems"] ∧ '/' ∉ dir.data) ∧
    (∀ s t, s ≠ t → GetPath path_to_models s ≠ GetPath path_to_models t) := by
  refine ⟨rfl, rfl, rfl, ?_, ?_⟩
  · intro type
    cases type
    · exact ⟨"2stems", by simp [GetPath, String.append_assoc], by simp, by decide⟩
    · exact ⟨"4stems", by simp [GetPath, String.append_assoc], by simp, by decide⟩
    · exact ⟨"5stems", by simp [GetPath, String.append_assoc], by simp, by decide⟩
  · intro s t hst
    cases s <;> cases t <;> first
      | exact absurd rfl hst
      | exact append_left_ne _ _ _ (by decide)

/-- C7: `GetOutputNames` answers as many names as the profile has stems, 2 for
`TwoStems`, 4 for `FourStems` and 5 for `FiveStems`, and the names of one
profile are pairwise distinct. -/
theorem GetOutputNames_count_nodup :
    (GetOutputNames .TwoStems).length = 2 ∧
    (GetOutputNames .FourStems).length = 4 ∧
    (GetOutputNames .FiveStems).length = 5 ∧
    ∀ type, (GetOutputNames type).length = type.stemCount ∧ (GetOutputNames type).Nodup := by
  refine ⟨rfl, rfl, rfl, ?_⟩
  intro type
  cases type <;> exact ⟨rfl, by decide⟩

/-! ## Properties of `Filter::FrameLatency` -/

/-- C5: for `processLength >= frameLength >= 1`, both 16-bit values,
`FrameLatency` is `processLength - (processLength - frameLength) / 2` without
wrap-around; it is `processLength` when the two lengths are equal, and never
more than `processLength`. -/
theorem FrameLatency_formula (f : Filter) (hp : f.m_process_length < 2 ^ 16)
    (h1 : 1 ≤ f.m_frame_length) (hle : f.m_frame_length ≤ f.m_process_length) :
    f.FrameLatency = f.m_process_length - (f.m_process_length - f.m_frame_length) / 2 ∧
    (f.m_frame_length = f.m_process_length → f.FrameLatency = f.m_process_length) ∧
    f.FrameLatency ≤ f.m_process_length := by
  have key : f.FrameLatency =
      f.m_process_length - (f.m_process_length - f.m_frame_length) / 2 := by
    unfold Filter.FrameLatency Filter.ProcessLength Filter.FrameLength
    have hd : Int.tdiv ((f.m_process_length : Int) - (f.m_frame_length : Int)) 2 =
        (((f.m_process_length - f.m_frame_length) / 2 : Nat) : Int) := by
      rw [Int.tdiv_eq_ediv (by omega) (by omega)]
      omega
    rw [hd]
    omega
  refine ⟨key, ?_, ?_⟩
  · intro he
    rw [key, he]
    simp
  · rw [key]
    omega

theorem FrameLatency_formula_witness :
    (⟨.TwoStems, 44, 1, 0, false, 0⟩ : Filter).FrameLatency = 44 - (44 - 1) / 2 :=
  (FrameLatency_formula ⟨.TwoStems, 44, 1, 0, false, 0⟩ (by decide) (by decide)
    (by decide)).1

/-! ## Properties of `Initialize` -/

/-- C4: `Initialize` calls `Register`, for the profile it was given and for no
other, exactly when the loader answers `TF_OK`. Then the registry is the old
one with the new bundle (the loaded session and graph) stored under that
profile, and `err` is untouched. When the loader answers another code, `err`
is the I/O error and the registry is the one passed in. -/
theorem Initialize_registers_iff_loaded (loader : Loader) (registry : Registry)
    (path_to_models : String) (type : SeparationType) (err : error_code) :
    let loaded := loader (GetPath path_to_models type) ["serve"]
    let st := Initialize loader registry path_to_models type err
    let bundle : BundlePtr := ⟨MakeHandle loaded.session_ptr, MakeHandle (some loaded.graph)⟩
    (Call.Register type ∈ st.calls ↔ loaded.code = TF_OK) ∧
    (∀ t, Call.Register t ∈ st.calls → t = type) ∧
    (loaded.code = TF_OK →
      st.registry = registry.Register bundle type ∧
      st.registry.Get type = some bundle ∧
      (∀ t, t ≠ type → st.registry.Get t = registry.Get t) ∧
      st.err = err) ∧
    (loaded.code ≠ TF_OK →
      st.err = make_error_code errc.io_error ∧ st.registry = registry) := by
  intro loaded st bundle
  by_cases hc : loaded.code = TF_OK
  · have hst : st = ⟨registry.Register bundle type, err,
        [Call.LoadSessionFromSavedModel (GetPath path_to_models type) ["serve"]] ++
          [Call.Register type]⟩ := by
      simp only [st, Initialize]
      rw [if_neg (not_not.mpr hc)]
    rw [hst]
    refine ⟨by simp [hc], by simp, fun _ => ⟨rfl, ?_, ?_, rfl⟩, fun h => absurd hc h⟩
    · simp [Registry.Register, Registry.Get]
    · intro t ht
      simp [Registry.Register, Registry.Get, ht]
  · have hst : st = ⟨registry, make_error_code errc.io_error,
        [Call.LoadSessionFromSavedModel (GetPath path_to_models type) ["serve"]]⟩ := by
      simp only [st, Initialize]
      rw [if_pos hc]
    rw [hst]
    exact ⟨by simp [hc], by simp, fun h => absurd h hc, fun _ => ⟨rfl, rfl⟩⟩

/-! ## Properties of `RunModel` -/

theorem outputLoop_found (g : TF_Graph) (names : List String)
    (h : ∀ name ∈ names, TF_GraphOperationByName g name ≠ none)
    (output_ops : List TF_Output) (outputs : List (Option TF_Tensor)) :
    RunModel.outputLoop g names output_ops outputs =
      some (output_ops ++ names.map (fun name => ⟨TF_GraphOperationByName g name, 0⟩),
        outputs ++ List.replicate names.length none) := by
  induction names generalizing output_ops outputs with
  | nil => simp [RunModel.outputLoop]
  | cons name names ih =>
    have hn : TF_GraphOperationByName g name ≠ none := h name (List.mem_cons_self _ _)
    obtain ⟨op, hop⟩ := Option.ne_none_iff_exists'.mp hn
    have ih' := ih (fun n hm => h n (List.mem_cons_of_mem _ hm))
    simp only [RunModel.outputLoop, List.getLast?_append, List.getLast?_singleton,
      Option.or, Option.some_bind, hop]
    rw [ih']
    simp [hop, List.replicate_succ]

theorem outputLoop_absent (g : TF_Graph) (names : List String)
    (h : ∃ name ∈ names, TF_GraphOperationByName g name = none)
    (output_ops : List TF_Output) (outputs : List (Option TF_Tensor)) :
    RunModel.outputLoop g names output_ops outputs = none := by
  induction names generalizing output_ops outputs with
  | nil =>
    obtain ⟨name, hm, _⟩ := h
    exact absurd hm (List.not_mem_nil _)
  | cons name names ih =>
    cases hop : TF_GraphOperationByName g name with
    | none =>
      simp [RunModel.outputLoop, List.getLast?_append, hop]
    | some op =>
      have hrest : ∃ n ∈ names, TF_GraphOperationByName g n = none := by
        obtain ⟨n, hm, hn⟩ := h
        rcases List.mem_cons.mp hm with rfl | hm'
        · rw [hop] at hn
          exact absurd hn (by simp)
        · exact ⟨n, hm', hn⟩
      simp only [RunModel.outputLoop, List.getLast?_append, List.getLast?_singleton,
        Option.or, Option.some_bind, hop]
      exact ih hrest _ _

theorem RunModel_found (registry : Registry) (input : Waveform) (type : SeparationType)
    (result : List (TFHandlePtr TF_Tensor)) (err : error_code) (s : TF_Session)
    (g : TF_Graph) (h : BundleAndEndpointsFound registry type s g) :
    RunModel registry input type result err =
      some (if (RunModel.answer s g input type).1 ≠ TF_OK then
          ⟨result, make_error_code errc.io_error,
            [Call.SessionRun (GetOutputNames type).length]⟩
        else
          ⟨(List.range (GetOutputNames type).length).map
              (fun i => MakeHandle ((RunModel.answer s g input type).2 i)),
            err, [Call.SessionRun (GetOutputNames type).length]⟩) := by
  obtain ⟨⟨bundle, hb, hs, hg⟩, hin, hout⟩ := h
  unfold RunModel
  simp only [hb, hg, hs]
  rw [if_neg hin, outputLoop_found g _ hout]
  simp only [TF_SessionRun, List.nil_append, List.length_map, List.length_replicate,
    List.drop_length, List.append_nil]
  by_cases hc : (RunModel.answer s g input type).1 = TF_OK
  · have hc' := hc
    simp only [RunModel.answer, RunModel.input_op, RunModel.inputs,
      RunModel.output_ops] at hc'
    simp [hc, hc', RunModel.answer, RunModel.input_op, RunModel.inputs,
      RunModel.output_ops, MakeHandle]
  · have hc' := hc
    simp only [RunModel.answer, RunModel.input_op, RunModel.inputs,
      RunModel.output_ops] at hc'
    simp [hc, hc', MakeHandle]

theorem RunModel_absent (registry : Registry) (input : Waveform)
    (type : SeparationType) (result : List (TFHandlePtr TF_Tensor)) (err : error_code)
    (h : registry.Get type = none ∨
      ∃ bundle g, registry.Get type = some bundle ∧ bundle.second.get = some g ∧
        (TF_GraphOperationByName g "Placeholder" = none ∨
          ∃ name ∈ GetOutputNames type, TF_GraphOperationByName g name = none)) :
    RunModel registry input type result err =
      some ⟨result, make_error_code errc.protocol_error, []⟩ := by
  rcases h with hb | ⟨bundle, g, hb, hg, hin | hout⟩
  · simp only [RunModel, hb]
  · unfold RunModel
    simp only [hb, hg]
    rw [if_pos hin]
  · by_cases hin : TF_GraphOperationByName g "Placeholder" = none
    · unfold RunModel
      simp only [hb, hg]
      rw [if_pos hin]
    · unfold RunModel
      simp only [hb, hg]
      rw [if_neg hin, outputLoop_absent g _ hout]

theorem RunModel_null_session (registry : Registry) (input : Waveform)
    (type : SeparationType) (result : List (TFHandlePtr TF_Tensor)) (err : error_code)
    (bundle : BundlePtr) (g : TF_Graph) (hb : registry.Get type = some bundle)
    (hg : bundle.second.get = some g) (hs : bundle.first.get = none)
    (hin : TF_GraphOperationByName g "Placeholder" ≠ none)
    (hout : ∀ name ∈ GetOutputNames type, TF_GraphOperationByName g name ≠ none) :
    RunModel registry input type result err = none := by
  unfold RunModel
  simp only [hb, hg, hs]
  rw [if_neg hin, outputLoop_found g _ hout]
  simp only [TF_SessionRun]

/-- C1: when the registry has no bundle for the profile, or the graph of the
bundle has no node named "Placeholder", or it lacks one of the output names of
the profile, `RunModel` returns with `err` set to the protocol error and
without a call of `TF_SessionRun`. -/
theorem RunModel_protocol_error (registry : Registry) (input : Waveform)
    (type : SeparationType) (result : List (TFHandlePtr TF_Tensor)) (err : error_code)
    (h : registry.Get type = none ∨
      ∃ bundle g, registry.Get type = some bundle ∧ bundle.second.get = some g ∧
        (TF_GraphOperationByName g "Placeholder" = none ∨
          ∃ name ∈ GetOutputNames type, TF_GraphOperationByName g name = none)) :
    ∃ st, RunModel registry input type result err = some st ∧
      st.err = make_error_code errc.protocol_error ∧ st.calls = [] :=
  ⟨_, RunModel_absent registry input type result err h, rfl, rfl⟩

theorem RunModel_protocol_error_witness :
    ∃ st, RunModel (exampleRegistry (exampleSession TF_OK) inputOnlyGraph) exampleInput
        .TwoStems [] none = some st ∧
      st.err = make_error_code errc.protocol_error ∧ st.calls = [] :=
  RunModel_protocol_error (exampleRegistry (exampleSession TF_OK) inputOnlyGraph)
    exampleInput .TwoStems [] none
    (Or.inr ⟨_, inputOnlyGraph, rfl, rfl,
      Or.inr ⟨"strided_slice_11", by decide, by decide⟩⟩)

/-- C2: when the bundle and every named endpoint are found and the session
answers a code other than `TF_OK`, `RunModel` returns with `err` set to the I/O
error, after the one call of `TF_SessionRun`. -/
theorem RunModel_io_error (registry : Registry) (input : Waveform)
    (type : SeparationType) (result : List (TFHandlePtr TF_Tensor)) (err : error_code)
    (s : TF_Session) (g : TF_Graph) (h : BundleAndEndpointsFound registry type s g)
    (hc : (RunModel.answer s g input type).1 ≠ TF_OK) :
    ∃ st, RunModel registry input type result err = some st ∧
      st.err = make_error_code errc.io_error ∧
      st.calls = [Call.SessionRun (GetOutputNames type).length] := by
  rw [RunModel_found registry input type result err s g h, if_pos hc]
  exact ⟨_, rfl, rfl, rfl⟩

theorem exampleFound (code : TF_Code) :
    BundleAndEndpointsFound (exampleRegistry (exampleSession code) exampleGraph) .TwoStems
      (exampleSession code) exampleGraph :=
  ⟨⟨_, rfl, rfl, rfl⟩, by decide, by decide⟩

theorem RunModel_io_error_witness :
    ∃ st, RunModel (exampleRegistry (exampleSession 3) exampleGraph) exampleInput
        .TwoStems [] none = some st ∧
      st.err = make_error_code errc.io_error ∧
      st.calls = [Call.SessionRun (GetOutputNames .TwoStems).length] :=
  RunModel_io_error (exampleRegistry (exampleSession 3) exampleGraph) exampleInput
    .TwoStems [] none (exampleSession 3) exampleGraph (exampleFound 3) (by decide)

/-- C3: when the bundle and every named endpoint are found and the session
answers `TF_OK`, `RunModel` returns with `result` holding one handle per stem
(2, 4 or 5 of them): the `i`-th is the handle of the tensor the session stored
in slot `i`, and slot `i` is the slot of the `i`-th name of `GetOutputNames`.
The value of `result` on entry plays no part in it. -/
theorem RunModel_one_tensor_per_stem (registry : Registry) (input : Waveform)
    (type : SeparationType) (result : List (TFHandlePtr TF_Tensor)) (err : error_code)
    (s : TF_Session) (g : TF_Graph) (h : BundleAndEndpointsFound registry type s g)
    (hc : (RunModel.answer s g input type).1 = TF_OK) :
    ∃ st, RunModel registry input type result err = some st ∧
      st.result.length = type.stemCount ∧
      (∀ i, i < type.stemCount →
        (∃ name, (GetOutputNames type)[i]? = some name ∧
          (RunModel.output_ops g type)[i]? = some ⟨TF_GraphOperationByName g name, 0⟩) ∧
        st.result[i]? = some (MakeHandle ((RunModel.answer s g input type).2 i))) ∧
      (∀ other, Option.map RunModelState.result
        (RunModel registry input type other err) = some st.result) := by
  have hlen : (GetOutputNames type).length = type.stemCount := by cases type <;> rfl
  have hrun : ∀ other, RunModel registry input type other err =
      some ⟨(List.range type.stemCount).map
        (fun i => MakeHandle ((RunModel.answer s g input type).2 i)), err,
        [Call.SessionRun (GetOutputNames type).length]⟩ := by
    intro other
    rw [RunModel_found registry input type other err s g h, if_neg (not_not.mpr hc), hlen]
  refine ⟨_, hrun result, by simp, ?_, fun other => by rw [hrun other]; rfl⟩
  intro i hi
  refine ⟨?_, by simp [hi]⟩
  have hi' : i < (GetOutputNames type).length := hlen ▸ hi
  exact ⟨(GetOutputNames type)[i], by simp [hi'], by simp [RunModel.output_ops, hi']⟩

theorem RunModel_one_tensor_per_stem_witness :
    ∃ st, RunModel (exampleRegistry (exampleSession TF_OK) exampleGraph) exampleInput
        .TwoStems [MakeHandle none] none = some st ∧
      st.result.length = SeparationType.TwoStems.stemCount ∧
      (∀ i, i < SeparationType.TwoStems.stemCount →
        (∃ name, (GetOutputNames .TwoStems)[i]? = some name ∧
          (RunModel.output_ops exampleGraph .TwoStems)[i]? =
            some ⟨TF_GraphOperationByName exampleGraph name, 0⟩) ∧
        st.result[i]? = some (MakeHandle
          ((RunModel.answer (exampleSession TF_OK) exampleGraph exampleInput .TwoStems).2 i))) ∧
      (∀ other, Option.map RunModelState.result
        (RunModel (exampleRegistry (exampleSession TF_OK) exampleGraph) exampleInput
          .TwoStems other none) = some st.result) :=
  RunModel_one_tensor_per_stem (exampleRegistry (exampleSession TF_OK) exampleGraph)
    exampleInput .TwoStems [MakeHandle none] none (exampleSession TF_OK) exampleGraph
    (exampleFound TF_OK) rfl

/-- C10: on each path where `RunModel` reports an error (no bundle, an endpoint
absent from the graph, a session answer other than `TF_OK`) it returns with
`result` as it was on entry; and whenever it returns with another `result`, the
session was executed and answered `TF_OK`. -/
theorem RunModel_error_keeps_result (registry : Registry) (input : Waveform)
    (type : SeparationType) (result : List (TFHandlePtr TF_Tensor)) (err : error_code) :
    ((registry.Get type = none ∨
        ∃ bundle g, registry.Get type = some bundle ∧ bundle.second.get = some g ∧
          (TF_GraphOperationByName g "Placeholder" = none ∨
            ∃ name ∈ GetOutputNames type, TF_GraphOperationByName g name = none)) →
      ∃ st, RunModel registry input type result err = some st ∧ st.result = result) ∧
    (∀ s g, BundleAndEndpointsFound registry type s g →
      (RunModel.answer s g input type).1 ≠ TF_OK →
      ∃ st, RunModel registry input type result err = some st ∧ st.result = result) ∧
    (∀ st, RunModel registry input type result err = some st → st.result ≠ result →
      ∃ s g, BundleAndEndpointsFound registry type s g ∧
        (RunModel.answer s g input type).1 = TF_OK ∧
        st.calls = [Call.SessionRun (GetOutputNames type).length]) := by
  refine ⟨fun h => ⟨_, RunModel_absent registry input type result err h, rfl⟩, ?_, ?_⟩
  · intro s g h hc
    rw [RunModel_found registry input type result err s g h, if_pos hc]
    exact ⟨_, rfl, rfl⟩
  · intro st hst hne
    cases hb : registry.Get type with
    | none =>
      rw [RunModel_absent registry input type result err (Or.inl hb)] at hst
      cases hst
      exact absurd rfl hne
    | some bundle =>
      cases hg : bundle.second.get with
      | none =>
        unfold RunModel at hst
        simp only [hb, hg] at hst
        cases hst
      | some g =>
        by_cases hab : TF_GraphOperationByName g "Placeholder" = none ∨
            ∃ name ∈ GetOutputNames type, TF_GraphOperationByName g name = none
        · rw [RunModel_absent registry input type result err
            (Or.inr ⟨bundle, g, hb, hg, hab⟩)] at hst
          cases hst
          exact absurd rfl hne
        · have hin : TF_GraphOperationByName g "Placeholder" ≠ none :=
            fun hn => hab (Or.inl hn)
          have hout : ∀ name ∈ GetOutputNames type,
              TF_GraphOperationByName g name ≠ none :=
            fun name hm hn => hab (Or.inr ⟨name, hm, hn⟩)
          cases hs : bundle.first.get with
          | none =>
            rw [RunModel_null_session registry input type result err bundle g hb hg hs
              hin hout] at hst
            cases hst
          | some s =>
            have hf : BundleAndEndpointsFound registry type s g :=
              ⟨⟨bundle, hb, hs, hg⟩, hin, hout⟩
            rw [RunModel_found registry input type result err s g hf] at hst
            by_cases hc : (RunModel.answer s g input type).1 = TF_OK
            · rw [if_neg (not_not.mpr hc)] at hst
              cases hst
              exact ⟨s, g, hf, hc, rfl⟩
            · rw [if_pos hc] at hst
              cases hst
              exact absurd rfl hne

/-! ## Properties of `SetOutput` -/

theorem resize_rows (w : Waveform) (rows cols : Nat) : (w.resize rows cols).rows = rows := by
  unfold Waveform.resize
  split <;> rfl

theorem resize_cols (w : Waveform) (rows cols : Nat) : (w.resize rows cols).cols = cols := by
  unfold Waveform.resize
  split <;> rfl

theorem std_copy_whole (first : List float) (n : Nat) (d_first : List float)
    (hn : n ≤ first.length) (hd : d_first.length = n) :
    ∃ d, std_copy first n d_first = some d ∧ d.val = first.take n := by
  unfold std_copy
  rw [dif_pos ⟨hn, hd.ge⟩]
  refine ⟨_, rfl, ?_⟩
  show first.take n ++ d_first.drop n = first.take n
  rw [List.drop_of_length_le hd.le, List.append_nil]

theorem SetOutput_loop_spec (frame_count : Nat) (tf_output : List (TFHandlePtr TF_Tensor)) :
    ∀ (index : Nat) (output : List Waveform),
      index + tf_output.length ≤ output.length →
      (∀ h ∈ tf_output, ∃ t, h.get = some t ∧ 2 * frame_count ≤ t.data.length) →
      ∃ out, SetOutput.loop frame_count tf_output index output = some out ∧
        out.length = output.length ∧
        (∀ (j : Nat) (h : TFHandlePtr TF_Tensor), tf_output[j]? = some h →
          ∃ (t : TF_Tensor) (w : Waveform), h.get = some t ∧
          out[index + j]? = some w ∧ w.rows = 2 ∧ w.cols = frame_count ∧
          w.data = t.data.take (2 * frame_count)) ∧
        (∀ i, i < index ∨ index + tf_output.length ≤ i → out[i]? = output[i]?) := by
  induction tf_output with
  | nil =>
    intro index output _ _
    exact ⟨output, rfl, rfl, fun j h hj => by simp at hj, fun _ _ => rfl⟩
  | cons t rest ih =>
    intro index output hlen htens
    have hidx : index < output.length := by
      simp only [List.length_cons] at hlen
      omega
    obtain ⟨tt, htt, hsize⟩ := htens t (List.mem_cons_self _ _)
    have hw : output[index]? = some output[index] := List.getElem?_eq_getElem hidx
    have hwsize : ((output[index]).resize 2 frame_count).size = 2 * frame_count := by
      simp only [Waveform.size, resize_rows, resize_cols]
    have hwlen : ((output[index]).resize 2 frame_count).data.length = 2 * frame_count := by
      rw [((output[index]).resize 2 frame_count).wf, resize_rows, resize_cols]
    obtain ⟨d, hd, hdval⟩ := std_copy_whole tt.data (2 * frame_count)
      ((output[index]).resize 2 frame_count).data hsize hwlen
    obtain ⟨out, hout, holen, hfirst, hkeep⟩ := ih (index + 1)
      (output.set index ⟨((output[index]).resize 2 frame_count).rows,
        ((output[index]).resize 2 frame_count).cols, d.val,
        d.property.trans ((output[index]).resize 2 frame_count).wf⟩)
      (by simp only [List.length_cons] at hlen; rw [List.length_set]; omega)
      (fun h hm => htens h (List.mem_cons_of_mem _ hm))
    refine ⟨out, ?_, ?_, ?_, ?_⟩
    · simp only [SetOutput.loop, hw, htt, TF_TensorData, hwsize, hd]
      exact hout
    · rw [holen, List.length_set]
    · intro j h hj
      cases j with
      | zero =>
        simp only [List.getElem?_cons_zero, Option.some.injEq] at hj
        subst hj
        refine ⟨tt, ⟨((output[index]).resize 2 frame_count).rows,
          ((output[index]).resize 2 frame_count).cols, d.val,
          d.property.trans ((output[index]).resize 2 frame_count).wf⟩, htt, ?_, ?_, ?_, ?_⟩
        · rw [Nat.add_zero, hkeep index (Or.inl (Nat.lt_succ_self _)),
            List.getElem?_set_self hidx]
        · exact resize_rows _ _ _
        · exact resize_cols _ _ _
        · exact hdval
      | succ j =>
        simp only [List.getElem?_cons_succ] at hj
        obtain ⟨t', w, ht', hw', hrest⟩ := hfirst j h hj
        refine ⟨t', w, ht', ?_, hrest⟩
        rw [← hw']
        congr 1
        omega
    · intro i hi
      have hne : index ≠ i := by
        simp only [List.length_cons] at hi
        omega
      rw [hkeep i (by simp only [List.length_cons] at hi; omega),
        List.getElem?_set_ne hne]

/-- C9: for `n` tensors, each a live tensor of at least `2 * frame_count` floats,
and at least `n` matrices, `SetOutput` returns; afterwards each of the first `n`
matrices has 2 rows and `frame_count` columns and its coefficients are, in
storage order, the first `2 * frame_count` floats of the tensor of the same
index, and every matrix from index `n` on is as it was. -/
theorem SetOutput_copies (tf_output : List (TFHandlePtr TF_Tensor)) (frame_count : Nat)
    (output : List Waveform) (hlen : tf_output.length ≤ output.length)
    (htens : ∀ h ∈ tf_output, ∃ t, h.get = some t ∧ 2 * frame_count ≤ t.data.length) :
    ∃ out, SetOutput tf_output frame_count output = some out ∧
      out.length = output.length ∧
      (∀ (i : Nat) (h : TFHandlePtr TF_Tensor), tf_output[i]? = some h →
        ∃ (t : TF_Tensor) (w : Waveform), h.get = some t ∧ out[i]? = some w ∧
        w.rows = 2 ∧ w.cols = frame_count ∧ w.data.length = 2 * frame_count ∧
        w.data = t.data.take (2 * frame_count)) ∧
      (∀ i, tf_output.length ≤ i → out[i]? = output[i]?) := by
  obtain ⟨out, hout, holen, hfirst, hkeep⟩ :=
    SetOutput_loop_spec frame_count tf_output 0 output (by omega) htens
  refine ⟨out, hout, holen, ?_, fun i hi => hkeep i (Or.inr (by omega))⟩
  intro i h hi
  obtain ⟨t, w, ht, hw, hr, hc, hdata⟩ := hfirst i h hi
  rw [Nat.zero_add] at hw
  exact ⟨t, w, ht, hw, hr, hc, by rw [w.wf, hr, hc], hdata⟩

theorem SetOutput_copies_witness :
    ∃ out, SetOutput exampleTensors 1 exampleOutput = some out ∧
      out.length = exampleOutput.length ∧
      (∀ (i : Nat) (h : TFHandlePtr TF_Tensor), exampleTensors[i]? = some h →
        ∃ (t : TF_Tensor) (w : Waveform), h.get = some t ∧ out[i]? = some w ∧
        w.rows = 2 ∧ w.cols = 1 ∧ w.data.length = 2 * 1 ∧
        w.data = t.data.take (2 * 1)) ∧
      (∀ i, exampleTensors.length ≤ i → out[i]? = exampleOutput[i]?) :=
  SetOutput_copies exampleTensors 1 exampleOutput (by decide)
    (fun h hm => by
      rw [exampleTensors, List.mem_singleton] at hm
      subst hm
      exact ⟨_, rfl, by decide⟩)

theorem SetOutput_example :
    SetOutput exampleTensors 1 exampleOutput =
      some [⟨2, 1, [11, 12], rfl⟩, ⟨1, 1, [9], rfl⟩] := by
  rfl

theorem RunModel_example :
    Option.map (fun st => (st.result.map TFHandle.get, st.err, st.calls))
      (RunModel (exampleRegistry (exampleSession TF_OK) exampleGraph) exampleInput
        .TwoStems [] none) =
      some ([some ⟨[1], [0]⟩, some ⟨[1], [1]⟩], none, [Call.SessionRun 2]) := by
  rfl

end spleeter
